import Mathlib

/-!
Shallow embedding of the campus-connect errand lifecycle engine.

The definitions mirror the TypeScript sources:
* `getFullPricing` embeds `utils/errandPricing.ts` (the version imported by
  `services/errandService.ts`);
* `createErrand`, `acceptErrand`, `startErrand`, `completeErrand`,
  `cancelErrand`, `canCancelErrand` and `previewEarnings` embed
  `services/errandService.ts`;
* `updateRunnerProfile` embeds the availability-touching part of
  `services/runnerService.ts`.

Numbers are rationals; JS `Math.round(x*100)/100` becomes `round2`; the
database is an explicit record of lists; every operation returns
`Except ErrandError _`, and an error result models the rolled-back
transaction (no state change is kept).
-/

namespace CampusConnect

/-- JS `Math.round (x * 100) / 100`: rounding half-up to two decimals
(all rounded quantities in the engine are non-negative in practice,
where `Math.round` is exactly half-up). -/
def round2 (x : ℚ) : ℚ := (⌊x * 100 + 1 / 2⌋ : ℚ) / 100

/-- The `Category` enum of `types/errand.ts`. -/
inductive Category where
  | delivery
  | shopping
  | food_delivery
  | documents
  | other
  deriving DecidableEq, Repr

/-- The `Urgency` enum of `types/errand.ts`. -/
inductive Urgency where
  | standard
  | urgent
  | asap
  deriving DecidableEq, Repr

/-- The `ErrandStatus` enum of `types/errand.ts`. -/
inductive ErrandStatus where
  | pending
  | accepted
  | in_progress
  | completed
  | cancelled
  deriving DecidableEq, Repr

/-- The list `Object.values(Category)`. -/
def categoryValues : List Category :=
  [.delivery, .shopping, .food_delivery, .documents, .other]

/-- The list `Object.values(Urgency)`. -/
def urgencyValues : List Urgency := [.standard, .urgent, .asap]

/-- The `urgencyMultipliers` table of `getFullPricing`. -/
def urgencyMultiplier : Urgency → ℚ
  | .standard => 1
  | .urgent => 13 / 10
  | .asap => 8 / 5

/-- The `categoryMultipliers` table of `getFullPricing`. -/
def categoryMultiplier : Category → ℚ
  | .delivery => 1
  | .shopping => 6 / 5
  | .food_delivery => 11 / 10
  | .documents => 1
  | .other => 1

/-- The constant `platformFeeRate = 0.15`. -/
def platformFeeRate : ℚ := 3 / 20

/-- The constant `distanceRate = 0.5` ("Distance fee (per km)"). -/
def distanceRate : ℚ := 1 / 2

/-- JS `a || b` where `a` is an optional number: `undefined` and `0` are
falsy, every other number is truthy. -/
def jsOr (a : Option ℚ) (b : ℚ) : ℚ :=
  match a with
  | none => b
  | some x => if x = 0 then b else x

/-- The `PricingBreakdown` record of `types/errand.ts`. -/
structure PricingBreakdown where
  basePrice : ℚ
  platformFee : ℚ
  urgencyFee : ℚ
  distanceFee : ℚ
  runnerEarnings : ℚ
  finalPrice : ℚ
  deriving DecidableEq, Repr

/-- Function `getFullPricing` of `utils/errandPricing.ts`.  The source line
`const distanceFee = distance || 0* distanceRate;` parses as
`distance || (0 * distanceRate)`, which the embedding keeps. -/
def getFullPricing (basePrice : ℚ) (category : Category) (urgency : Urgency)
    (distance : Option ℚ) : PricingBreakdown :=
  let urgencyMult := urgencyMultiplier urgency
  let categoryMult := categoryMultiplier category
  let distanceFee := jsOr distance (0 * distanceRate)
  let adjustedBasePrice := basePrice * categoryMult
  let urgencyFee := adjustedBasePrice * urgencyMult - adjustedBasePrice
  let priceBeforePlatformFee := adjustedBasePrice + urgencyFee + distanceFee
  let platformFee := priceBeforePlatformFee * platformFeeRate
  let finalPrice := priceBeforePlatformFee + platformFee
  let runnerEarnings := priceBeforePlatformFee - platformFee
  { basePrice := round2 adjustedBasePrice
    platformFee := round2 platformFee
    urgencyFee := round2 urgencyFee
    distanceFee := round2 distanceFee
    runnerEarnings := round2 runnerEarnings
    finalPrice := round2 finalPrice }

/-- The pre-fee subtotal (`priceBeforePlatformFee`) that `getFullPricing`
computes before any rounding. -/
def preFeeSubtotal (basePrice : ℚ) (category : Category) (urgency : Urgency)
    (distance : Option ℚ) : ℚ :=
  let adjustedBasePrice := basePrice * categoryMultiplier category
  adjustedBasePrice + (adjustedBasePrice * urgencyMultiplier urgency - adjustedBasePrice) +
    jsOr distance (0 * distanceRate)

/-- The `ErrandError` thrown by `errandService.ts`, reduced to the
machine-readable code and HTTP status hint (the human message is dropped). -/
structure ErrandError where
  code : String
  statusCode : Nat
  deriving DecidableEq, Repr

/-- The `users` row fields the lifecycle engine reads. -/
structure User where
  id : Nat
  is_active : Bool
  deriving DecidableEq, Repr

/-- The `runners` row fields the lifecycle engine reads and writes. -/
structure Runner where
  user_id : Nat
  is_available : Bool
  is_approved : Bool
  rating : ℚ
  completed_errands : Nat
  earnings : ℚ
  deriving DecidableEq, Repr

/-- An `errands` row.  Timestamps are integer epoch milliseconds. -/
structure Errand where
  id : Nat
  customer_id : Nat
  runner_id : Option Nat
  category : Category
  urgency : Urgency
  base_price : ℚ
  final_price : ℚ
  distance_km : ℚ
  pricing_breakdown : PricingBreakdown
  status : ErrandStatus
  accepted_at : Option Int
  started_at : Option Int
  completed_at : Option Int
  cancelled_at : Option Int
  cancelled_by : Option Nat
  updated_at : Int
  deriving DecidableEq, Repr

/-- A `transactions` row as `completeErrand` creates it. -/
structure TransactionRecord where
  errand_id : Nat
  customer_id : Nat
  runner_id : Nat
  amount : ℚ
  base_amount : ℚ
  platform_fee : ℚ
  runner_earnings : ℚ
  payment_status : String
  deriving DecidableEq, Repr

/-- The relational store as the engine sees it.  `nextErrandId` stands for
the auto-increment sequence of the `errands` table. -/
structure DBState where
  users : List User
  runners : List Runner
  errands : List Errand
  transactions : List TransactionRecord
  nextErrandId : Nat
  deriving DecidableEq, Repr

/-- Query `models.User.findByPk`. -/
def findUser (s : DBState) (uid : Nat) : Option User :=
  s.users.find? (fun u => decide (u.id = uid))

/-- Query `models.Errand.findByPk` (the row lock has no observable effect in the
serialized model). -/
def findErrand (s : DBState) (eid : Nat) : Option Errand :=
  s.errands.find? (fun e => decide (e.id = eid))

/-- Query `models.Runner.findOne({where: {user_id, is_available: true,
is_approved: true}})`. -/
def findRunnerAvail (s : DBState) (rid : Nat) : Option Runner :=
  s.runners.find? (fun r =>
    decide (r.user_id = rid ∧ r.is_available = true ∧ r.is_approved = true))

/-- Query `models.Runner.findOne({where: {user_id}})`. -/
def findRunner (s : DBState) (uid : Nat) : Option Runner :=
  s.runners.find? (fun r => decide (r.user_id = uid))

/-- In-place update of every errand row with the given id. -/
def updateErrand (s : DBState) (eid : Nat) (f : Errand → Errand) : DBState :=
  { s with errands := s.errands.map (fun e => if e.id = eid then f e else e) }

/-- Update `models.Runner.update(..., {where: {user_id}})`. -/
def updateRunner (s : DBState) (uid : Nat) (f : Runner → Runner) : DBState :=
  { s with runners := s.runners.map (fun r => if r.user_id = uid then f r else r) }

/-- Count `models.Errand.count({where: {customer_id, status: PENDING}})`. -/
def pendingCount (s : DBState) (cid : Nat) : Nat :=
  s.errands.countP (fun e => decide (e.customer_id = cid ∧ e.status = ErrandStatus.pending))

/-- Whether `accepted_at >= today-midnight` (a NULL `accepted_at` never
matches the comparison). -/
def acceptedSince (e : Errand) (midnight : Int) : Bool :=
  match e.accepted_at with
  | some t => decide (midnight ≤ t)
  | none => false

/-- Count `models.Errand.count({where: {runner_id, accepted_at: {gte: today}}})`. -/
def todayAcceptedCount (s : DBState) (rid : Nat) (midnight : Int) : Nat :=
  s.errands.countP (fun e => decide (e.runner_id = some rid) && acceptedSince e midnight)

/-- The 24-hour window in milliseconds. -/
def dayMs : Int := 24 * 60 * 60 * 1000

/-- Count `models.Errand.count({where: {customer_id, status: CANCELLED,
updated_at: {gte: now - 24h}}})`. -/
def customerRecentCancellations (s : DBState) (uid : Nat) (now : Int) : Nat :=
  s.errands.countP (fun e =>
    decide (e.customer_id = uid ∧ e.status = ErrandStatus.cancelled ∧
      now - dayMs ≤ e.updated_at))

/-- Count `models.Errand.count({where: {runner_id, status: CANCELLED,
updated_at: {gte: now - 24h}}})`. -/
def runnerRecentCancellations (s : DBState) (uid : Nat) (now : Int) : Nat :=
  s.errands.countP (fun e =>
    decide (e.runner_id = some uid ∧ e.status = ErrandStatus.cancelled ∧
      now - dayMs ≤ e.updated_at))

/-- The `CreateErrandData` payload of `types/errand.ts`, reduced to the fields the
engine computes with. -/
structure CreateErrandData where
  customerId : Nat
  category : Category
  urgency : Urgency
  budget : ℚ
  distance : Option ℚ
  deriving DecidableEq, Repr

/-- The errand row `createErrand` persists. -/
def newErrandRow (s : DBState) (data : CreateErrandData) (now : Int) : Errand :=
  let distance := jsOr data.distance 0
  let pricing := getFullPricing data.budget data.category data.urgency (some distance)
  { id := s.nextErrandId
    customer_id := data.customerId
    runner_id := none
    category := data.category
    urgency := data.urgency
    base_price := data.budget
    final_price := pricing.finalPrice
    distance_km := distance
    pricing_breakdown := pricing
    status := .pending
    accepted_at := none
    started_at := none
    completed_at := none
    cancelled_at := none
    cancelled_by := none
    updated_at := now }

/-- Function `createErrand` of `errandService.ts`.  The post-create `findByPk`
re-read always finds the row just created, so the `CREATE_FAILED` branch
does not arise in the model. -/
def createErrand (s : DBState) (data : CreateErrandData) (now : Int) :
    Except ErrandError (DBState × Errand) :=
  match findUser s data.customerId with
  | none => .error ⟨"CUSTOMER_NOT_FOUND", 404⟩
  | some customer =>
    if customer.is_active = false then .error ⟨"ACCOUNT_INACTIVE", 403⟩
    else if 10 ≤ pendingCount s data.customerId then
      .error ⟨"TOO_MANY_PENDING_ERRANDS", 429⟩
    else if data.budget ≤ 0 then .error ⟨"INVALID_BUDGET", 400⟩
    else if data.budget < 1 then .error ⟨"BUDGET_TOO_LOW", 400⟩
    else if (getFullPricing data.budget data.category data.urgency
        (some (jsOr data.distance 0))).finalPrice ≤ 0 then
      .error ⟨"INVALID_PRICING", 400⟩
    else
      let e := newErrandRow s data now
      .ok ({ s with errands := s.errands ++ [e], nextErrandId := s.nextErrandId + 1 }, e)

/-- The row mutation `acceptErrand` applies to the accepted errand. -/
def acceptRow (runnerId : Nat) (now : Int) (e : Errand) : Errand :=
  { e with runner_id := some runnerId, status := .accepted,
           accepted_at := some now, updated_at := now }

/-- The state `acceptErrand` commits on success: the errand assigned and
accepted, the runner made unavailable. -/
def acceptApplied (s : DBState) (errandId runnerId : Nat) (now : Int) : DBState :=
  updateRunner (updateErrand s errandId (acceptRow runnerId now)) runnerId
    (fun r => { r with is_available := false })

/-- Function `acceptErrand` of `errandService.ts`: one serialized transaction
holding the row lock on the errand. -/
def acceptErrand (s : DBState) (errandId runnerId : Nat) (now midnight : Int) :
    Except ErrandError DBState :=
  match findRunnerAvail s runnerId with
  | none => .error ⟨"RUNNER_UNAVAILABLE", 403⟩
  | some _ =>
    if 15 ≤ todayAcceptedCount s runnerId midnight then
      .error ⟨"DAILY_LIMIT_REACHED", 429⟩
    else
      match findErrand s errandId with
      | none => .error ⟨"ERRAND_NOT_FOUND", 404⟩
      | some errand =>
        if errand.status ≠ ErrandStatus.pending then
          .error ⟨"ERRAND_UNAVAILABLE", 409⟩
        else if errand.runner_id.isSome then
          .error ⟨"ERRAND_ALREADY_ASSIGNED", 409⟩
        else if errand.customer_id = runnerId then
          .error ⟨"SELF_ACCEPTANCE_NOT_ALLOWED", 403⟩
        else
          .ok (acceptApplied s errandId runnerId now)

/-- The row mutation `startErrand` applies. -/
def startRow (now : Int) (e : Errand) : Errand :=
  { e with status := .in_progress, started_at := some now, updated_at := now }

/-- Function `startErrand` of `errandService.ts`. -/
def startErrand (s : DBState) (errandId runnerId : Nat) (now : Int) :
    Except ErrandError DBState :=
  match findErrand s errandId with
  | none => .error ⟨"ERRAND_NOT_FOUND", 404⟩
  | some errand =>
    if errand.runner_id ≠ some runnerId then .error ⟨"NOT_ASSIGNED_RUNNER", 403⟩
    else if errand.status ≠ ErrandStatus.accepted then
      .error ⟨"INVALID_STATUS_TRANSITION", 409⟩
    else
      .ok (updateErrand s errandId (startRow now))

/-- The row mutation `completeErrand` applies. -/
def completeRow (now : Int) (e : Errand) : Errand :=
  { e with status := .completed, completed_at := some now, updated_at := now }

/-- Function `completeErrand` of `errandService.ts`: re-derives the fee breakdown
from the stored base price, category, urgency and distance, updates the
runner's stats and availability, and creates the settlement row. -/
def completeErrand (s : DBState) (errandId runnerId : Nat) (now : Int) :
    Except ErrandError (DBState × TransactionRecord) :=
  match findErrand s errandId with
  | none => .error ⟨"ERRAND_NOT_FOUND", 404⟩
  | some errand =>
    if errand.runner_id ≠ some runnerId then .error ⟨"NOT_ASSIGNED_RUNNER", 403⟩
    else if errand.status ≠ ErrandStatus.in_progress then
      .error ⟨"INVALID_STATUS_TRANSITION", 409⟩
    else
      let pricing := getFullPricing errand.base_price errand.category errand.urgency
        (some errand.distance_km)
      let s1 := updateErrand s errandId (completeRow now)
      match findRunner s1 runnerId with
      | none => .error ⟨"RUNNER_NOT_FOUND", 404⟩
      | some runner =>
        let newRating : ℚ :=
          if 0 < runner.completed_errands then
            (runner.rating * runner.completed_errands + 9 / 2) / (runner.completed_errands + 1)
          else 9 / 2
        let s2 := updateRunner s1 runnerId (fun r =>
          { r with is_available := true
                   completed_errands := runner.completed_errands + 1
                   earnings := runner.earnings + pricing.runnerEarnings
                   rating := min 5 (round2 newRating) })
        let txn : TransactionRecord :=
          { errand_id := errandId
            customer_id := errand.customer_id
            runner_id := runnerId
            amount := errand.final_price
            base_amount := errand.base_price
            platform_fee := pricing.platformFee
            runner_earnings := pricing.runnerEarnings
            payment_status := "pending" }
        .ok ({ s2 with transactions := s2.transactions ++ [txn] }, txn)

/-- Function `canCancelErrand` of `errandService.ts` (the private policy helper);
`true` abbreviates `{allowed: true}`. -/
def canCancelErrand (status : ErrandStatus) (isCustomer isRunner : Bool) : Bool :=
  if ¬ (status = ErrandStatus.pending ∨ status = ErrandStatus.accepted ∨
        status = ErrandStatus.in_progress) then false
  else if isCustomer = false ∧ isRunner = false then false
  else if status = ErrandStatus.in_progress ∧ isCustomer = true then false
  else true

/-- The row mutation `cancelErrand` applies. -/
def cancelRow (userId : Nat) (now : Int) (e : Errand) : Errand :=
  { e with status := .cancelled, cancelled_by := some userId,
           cancelled_at := some now, updated_at := now }

/-- Function `cancelErrand` of `errandService.ts`. -/
def cancelErrand (s : DBState) (errandId userId : Nat) (now : Int) :
    Except ErrandError DBState :=
  match findErrand s errandId with
  | none => .error ⟨"ERRAND_NOT_FOUND", 404⟩
  | some errand =>
    let isCustomer : Bool := decide (errand.customer_id = userId)
    let isRunner : Bool := decide (errand.runner_id = some userId)
    if canCancelErrand errand.status isCustomer isRunner = false then
      .error ⟨"CANCELLATION_NOT_ALLOWED", 403⟩
    else if isCustomer = true ∧ 3 ≤ customerRecentCancellations s userId now then
      .error ⟨"TOO_MANY_CANCELLATIONS", 429⟩
    else if isRunner = true ∧ 2 ≤ runnerRecentCancellations s userId now then
      .error ⟨"RUNNER_TOO_MANY_CANCELLATIONS", 429⟩
    else
      let s1 := updateErrand s errandId (cancelRow userId now)
      match errand.runner_id with
      | some rid => .ok (updateRunner s1 rid (fun r => { r with is_available := true }))
      | none => .ok s1

/-- JS `distance && distance < 0` on an optional number (`0` is falsy). -/
def distanceNegTruthy : Option ℚ → Bool
  | some d => !(decide (d = 0)) && decide (d < 0)
  | none => false

/-- Function `previewEarnings` of `errandService.ts`: the only call path that
validates the pricing inputs before invoking `getFullPricing`. -/
def previewEarnings (basePrice : ℚ) (category : Category) (urgency : Urgency)
    (distance : Option ℚ) : Except ErrandError PricingBreakdown :=
  if basePrice ≤ 0 then .error ⟨"INVALID_BASE_PRICE", 400⟩
  else if basePrice < 1 then .error ⟨"BASE_PRICE_TOO_LOW", 400⟩
  else if distanceNegTruthy distance = true then .error ⟨"INVALID_DISTANCE", 400⟩
  else if (categoryValues.contains category) = false then
    .error ⟨"INVALID_CATEGORY", 400⟩
  else if (urgencyValues.contains urgency) = false then
    .error ⟨"INVALID_URGENCY", 400⟩
  else .ok (getFullPricing basePrice category urgency (some (jsOr distance 0)))

/-- The `RunnerUpdateData` payload of `runnerService.ts`, reduced to the availability
field (`none` is JS `undefined`). -/
structure RunnerUpdateData where
  is_available : Option Bool
  deriving DecidableEq, Repr

/-- Function `updateRunnerProfile` of `runnerService.ts`, reduced to its effect on
`is_available`: the payload keeps the requested flag when one is given and
the current flag otherwise, with no check against held errands. -/
def updateRunnerProfile (s : DBState) (userId : Nat) (upd : RunnerUpdateData) :
    Except String DBState :=
  match findRunner s userId with
  | none => .error "Runner profile not found"
  | some runner =>
    let newAvail := upd.is_available.getD runner.is_available
    .ok (updateRunner s userId (fun r => { r with is_available := newAvail }))

/-- One inbound lifecycle action (§4.1's five operations). -/
inductive LifecycleOp where
  | create (data : CreateErrandData) (now : Int)
  | accept (errandId runnerId : Nat) (now midnight : Int)
  | start (errandId runnerId : Nat) (now : Int)
  | complete (errandId runnerId : Nat) (now : Int)
  | cancel (errandId userId : Nat) (now : Int)
  deriving DecidableEq, Repr

/-- Running one lifecycle operation; an error models the rolled-back
transaction. -/
def applyOp (s : DBState) : LifecycleOp → Except ErrandError DBState
  | .create data now => (createErrand s data now).map (·.1)
  | .accept e r now midnight => acceptErrand s e r now midnight
  | .start e r now => startErrand s e r now
  | .complete e r now => (completeErrand s e r now).map (·.1)
  | .cancel e u now => cancelErrand s e u now

/-- The errand currently occupies its runner (spec §3: status in
{accepted, in_progress}). -/
def isActive (e : Errand) : Prop :=
  e.status = ErrandStatus.accepted ∨ e.status = ErrandStatus.in_progress

instance (e : Errand) : Decidable (isActive e) := by unfold isActive; infer_instance

/-- Well-formed store: errand ids are unique and below the
auto-increment counter. -/
def WF (s : DBState) : Prop :=
  (s.errands.map (·.id)).Nodup ∧ ∀ e ∈ s.errands, e.id < s.nextErrandId

instance (s : DBState) : Decidable (WF s) := by unfold WF; infer_instance

/-- An errand only carries a runner after leaving `pending`. -/
def NoPendingRunner (s : DBState) : Prop :=
  ∀ e ∈ s.errands, e.runner_id ≠ none → e.status ≠ ErrandStatus.pending

instance (s : DBState) : Decidable (NoPendingRunner s) := by
  unfold NoPendingRunner; infer_instance

/-- A runner occupies at most one active errand. -/
def ActiveUnique (s : DBState) : Prop :=
  ∀ e₁ ∈ s.errands, ∀ e₂ ∈ s.errands, isActive e₁ → isActive e₂ →
    e₁.runner_id ≠ none → e₁.runner_id = e₂.runner_id → e₁.id = e₂.id

instance (s : DBState) : Decidable (ActiveUnique s) := by
  unfold ActiveUnique; infer_instance

/-- A runner holding an active errand is flagged unavailable. -/
def AvailOK (s : DBState) : Prop :=
  ∀ r ∈ s.runners, ∀ e ∈ s.errands, isActive e → e.runner_id = some r.user_id →
    r.is_available = false

instance (s : DBState) : Decidable (AvailOK s) := by
  unfold AvailOK; infer_instance

/-- The availability-ledger invariant carried across lifecycle
transitions. -/
def Inv (s : DBState) : Prop :=
  WF s ∧ NoPendingRunner s ∧ ActiveUnique s ∧ AvailOK s

instance (s : DBState) : Decidable (Inv s) := by unfold Inv; infer_instance

/-- The transitions the spec's state machine allows in one step
(reflexivity stands for "the operation did not touch this errand"). -/
def statusStepOK (a b : ErrandStatus) : Prop :=
  a = b ∨
  (a = ErrandStatus.pending ∧ (b = ErrandStatus.accepted ∨ b = ErrandStatus.cancelled)) ∨
  (a = ErrandStatus.accepted ∧ (b = ErrandStatus.in_progress ∨ b = ErrandStatus.cancelled)) ∨
  (a = ErrandStatus.in_progress ∧ (b = ErrandStatus.completed ∨ b = ErrandStatus.cancelled))

/-- Serialized execution of racing `accept` calls: the row lock makes the
transactions run one after the other in some order (the list), each
failed call rolling back. -/
def runAccepts (eid : Nat) (now midnight : Int) :
    DBState → List Nat → List (Except ErrandError Unit) × DBState
  | s, [] => ([], s)
  | s, r :: rs =>
    match acceptErrand s eid r now midnight with
    | .ok s1 =>
      let rest := runAccepts eid now midnight s1 rs
      (.ok () :: rest.1, rest.2)
    | .error err =>
      let rest := runAccepts eid now midnight s rs
      (.error err :: rest.1, rest.2)

/-- A runner that, against state `s`, passes every `acceptErrand`
precondition that concerns the runner: available and approved, below the
daily acceptance cap, and not the errand's own customer. -/
def eligibleRunner (s : DBState) (eid rid : Nat) (midnight : Int) : Prop :=
  (findRunnerAvail s rid).isSome = true ∧
  todayAcceptedCount s rid midnight < 15 ∧
  Option.all (fun e => decide (e.customer_id ≠ rid)) (findErrand s eid) = true

instance (s : DBState) (eid rid : Nat) (midnight : Int) :
    Decidable (eligibleRunner s eid rid midnight) := by
  unfold eligibleRunner; infer_instance

/-- Cancellations the user performed as the customer inside the trailing
24-hour window: cancelled errands of that customer that the user
themselves cancelled.  A subset of what `customerRecentCancellations`
counts (which ignores who cancelled). -/
def customerPerformedCancellations (s : DBState) (uid : Nat) (now : Int) : Nat :=
  s.errands.countP (fun e =>
    decide (e.customer_id = uid ∧ e.cancelled_by = some uid ∧
      e.status = ErrandStatus.cancelled ∧ now - dayMs ≤ e.updated_at))

/-- Cancellations the user performed as the assigned runner inside the
trailing 24-hour window; a subset of what `runnerRecentCancellations`
counts. -/
def runnerPerformedCancellations (s : DBState) (uid : Nat) (now : Int) : Nat :=
  s.errands.countP (fun e =>
    decide (e.runner_id = some uid ∧ e.cancelled_by = some uid ∧
      e.status = ErrandStatus.cancelled ∧ now - dayMs ≤ e.updated_at))

/-! Concrete stores used to instantiate the theorems: user 1 is the
customer, users 2 and 3 are runners. -/

/-- An errand of customer 1 in progress with runner 2 (base 100, category
delivery, standard urgency, distance 0; final price as priced at
creation). -/
def ipErrand : Errand :=
  { id := 1, customer_id := 1, runner_id := some 2, category := .delivery,
    urgency := .standard, base_price := 100, final_price := 115, distance_km := 0,
    pricing_breakdown := getFullPricing 100 .delivery .standard (some 0),
    status := .in_progress, accepted_at := some 0, started_at := some 0,
    completed_at := none, cancelled_at := none, cancelled_by := none, updated_at := 0 }

/-- Store with `ipErrand` held by runner 2 (unavailable while occupied). -/
def ipState : DBState :=
  { users := [⟨1, true⟩, ⟨2, true⟩], runners := [⟨2, false, true, 0, 0, 0⟩],
    errands := [ipErrand], transactions := [], nextErrandId := 2 }

/-- Same errand one step earlier: accepted, not yet started. -/
def accErrand : Errand :=
  { id := 1, customer_id := 1, runner_id := some 2, category := .delivery,
    urgency := .standard, base_price := 100, final_price := 115, distance_km := 0,
    pricing_breakdown := getFullPricing 100 .delivery .standard (some 0),
    status := .accepted, accepted_at := some 0, started_at := none,
    completed_at := none, cancelled_at := none, cancelled_by := none, updated_at := 0 }

/-- Store with `accErrand` held by runner 2. -/
def accState : DBState :=
  { users := [⟨1, true⟩, ⟨2, true⟩], runners := [⟨2, false, true, 0, 0, 0⟩],
    errands := [accErrand], transactions := [], nextErrandId := 2 }

/-- A pending errand of customer 1 with no runner. -/
def pendingRow (i : Nat) : Errand :=
  { id := i, customer_id := 1, runner_id := none, category := .delivery,
    urgency := .standard, base_price := 100, final_price := 115, distance_km := 0,
    pricing_breakdown := getFullPricing 100 .delivery .standard (some 0),
    status := .pending, accepted_at := none, started_at := none,
    completed_at := none, cancelled_at := none, cancelled_by := none, updated_at := 0 }

/-- Store with one pending errand and two distinct available approved
runners (users 2 and 3). -/
def raceState : DBState :=
  { users := [⟨1, true⟩, ⟨2, true⟩, ⟨3, true⟩],
    runners := [⟨2, true, true, 0, 0, 0⟩, ⟨3, true, true, 0, 0, 0⟩],
    errands := [pendingRow 1], transactions := [], nextErrandId := 2 }

/-- Store with just one active customer and nothing else. -/
def freshState : DBState :=
  { users := [⟨1, true⟩], runners := [], errands := [], transactions := [],
    nextErrandId := 1 }

/-- Creation request with a negative distance. -/
def negDistData : CreateErrandData :=
  { customerId := 1, category := .delivery, urgency := .standard, budget := 100,
    distance := some (-5) }

/-- Creation request with a budget below the minimum unit. -/
def lowBudgetData : CreateErrandData :=
  { customerId := 1, category := .delivery, urgency := .standard, budget := 1 / 2,
    distance := none }

/-- An errand of customer 1 cancelled by customer 1 at time 0. -/
def cancelledRow (i : Nat) : Errand :=
  { id := i, customer_id := 1, runner_id := none, category := .delivery,
    urgency := .standard, base_price := 100, final_price := 115, distance_km := 0,
    pricing_breakdown := getFullPricing 100 .delivery .standard (some 0),
    status := .cancelled, accepted_at := none, started_at := none,
    completed_at := none, cancelled_at := some 0, cancelled_by := some 1, updated_at := 0 }

/-- Store where customer 1 already cancelled three errands in the last
24 hours and still has one pending errand. -/
def rateState : DBState :=
  { users := [⟨1, true⟩, ⟨2, true⟩], runners := [],
    errands := [pendingRow 4, cancelledRow 1, cancelledRow 2, cancelledRow 3],
    transactions := [], nextErrandId := 5 }

end CampusConnect

namespace CampusConnect

theorem round2_le (x : ℚ) : round2 x ≤ x + 1 / 200 := by
  have h := Int.floor_le (x * 100 + 1 / 2)
  unfold round2
  rw [div_le_iff₀ (by norm_num : (0:ℚ) < 100)]
  linarith

theorem lt_round2 (x : ℚ) : x - 1 / 200 < round2 x := by
  have h := Int.sub_one_lt_floor (x * 100 + 1 / 2)
  unfold round2
  rw [lt_div_iff₀ (by norm_num : (0:ℚ) < 100)]
  linarith

theorem abs_round2_sub_le (x : ℚ) : |round2 x - x| ≤ 1 / 200 := by
  rw [abs_le]
  constructor
  · have := lt_round2 x
    linarith
  · have := round2_le x
    linarith

theorem getFullPricing_platformFee (bp : ℚ) (c : Category) (u : Urgency)
    (d : Option ℚ) :
    (getFullPricing bp c u d).platformFee =
      round2 (preFeeSubtotal bp c u d * platformFeeRate) := rfl

theorem getFullPricing_runnerEarnings (bp : ℚ) (c : Category) (u : Urgency)
    (d : Option ℚ) :
    (getFullPricing bp c u d).runnerEarnings =
      round2 (preFeeSubtotal bp c u d - preFeeSubtotal bp c u d * platformFeeRate) := rfl

theorem getFullPricing_finalPrice (bp : ℚ) (c : Category) (u : Urgency)
    (d : Option ℚ) :
    (getFullPricing bp c u d).finalPrice =
      round2 (preFeeSubtotal bp c u d + preFeeSubtotal bp c u d * platformFeeRate) := rfl

/-- The independently rounded fee and earnings always reconstruct the
pre-fee subtotal to within one cent. -/
theorem platformFee_add_runnerEarnings_near_subtotal (bp : ℚ) (c : Category)
    (u : Urgency) (d : Option ℚ) :
    |(getFullPricing bp c u d).platformFee + (getFullPricing bp c u d).runnerEarnings -
      preFeeSubtotal bp c u d| ≤ 1 / 100 := by
  rw [getFullPricing_platformFee, getFullPricing_runnerEarnings]
  set s := preFeeSubtotal bp c u d with hs
  have h1 := abs_round2_sub_le (s * platformFeeRate)
  have h2 := abs_round2_sub_le (s - s * platformFeeRate)
  calc |round2 (s * platformFeeRate) + round2 (s - s * platformFeeRate) - s|
      = |(round2 (s * platformFeeRate) - s * platformFeeRate) +
          (round2 (s - s * platformFeeRate) - (s - s * platformFeeRate))| := by ring_nf
    _ ≤ |round2 (s * platformFeeRate) - s * platformFeeRate| +
          |round2 (s - s * platformFeeRate) - (s - s * platformFeeRate)| := abs_add _ _
    _ ≤ 1 / 200 + 1 / 200 := add_le_add h1 h2
    _ = 1 / 100 := by norm_num

/-- C10: the `basePrice` field returned by `getFullPricing` is the
category-adjusted base price (input base price times the category
multiplier, rounded to 2 decimals), not the customer-entered base price;
in particular category shopping with input base 100 returns
basePrice 120. -/
theorem C10_basePrice_is_category_adjusted :
    (∀ bp c u d, (getFullPricing bp c u d).basePrice = round2 (bp * categoryMultiplier c)) ∧
    (getFullPricing 100 Category.shopping Urgency.standard none).basePrice = 120 := by
  constructor
  · intro bp c u d; rfl
  · norm_num [getFullPricing, categoryMultiplier, jsOr, round2]

/-- C2 (evaluating the code at the failing input): at base price 100,
category delivery, standard urgency, distance 5, the code returns
`distanceFee = 5`; the claimed value, distance times the 0.5 per-km
rate constant rounded to 2 decimals, is 2.5, and the two differ.  The
source line `distance || 0* distanceRate` parses as
`distance || (0 * distanceRate)`, so `distanceRate` is dead. -/
theorem C2_distanceFee_rate_never_applied :
    (getFullPricing 100 Category.delivery Urgency.standard (some 5)).distanceFee = 5 ∧
    round2 (5 * distanceRate) = 5 / 2 ∧ (5 : ℚ) ≠ 5 / 2 := by
  refine ⟨?_, ?_, by norm_num⟩
  · norm_num [getFullPricing, jsOr, round2, distanceRate]
  · norm_num [round2, distanceRate]

/-- C1 fails as stated: completing `ipErrand` (base 100, delivery,
standard, distance 0) stores amount 115 but platform_fee +
runner_earnings = 15 + 85 = 100, off by 15, far beyond the one-cent
rounding tolerance. -/
theorem C1_counterexample :
    (completeErrand ipState 1 2 5).map
        (fun p => (p.2.amount, p.2.platform_fee + p.2.runner_earnings)) =
      .ok (115, 100) ∧
    ¬ (|(100 : ℚ) - 115| ≤ 1 / 100) := by
  constructor
  · norm_num [completeErrand, ipState, ipErrand, findErrand, findRunner, updateErrand,
      updateRunner, completeRow, getFullPricing, jsOr, round2, platformFeeRate,
      categoryMultiplier, urgencyMultiplier, Except.map]
  · norm_num

/-- C1 amended: in every transaction record created by `completeErrand`,
`platform_fee + runner_earnings` equals the pre-fee subtotal re-derived
from the errand's stored base price, category, urgency and distance, up
to the one-cent rounding tolerance, while `amount` is the errand's
stored final price (subtotal plus platform fee). -/
theorem C1_amended_fee_split (s : DBState) (eid rid : Nat) (now : Int)
    (s' : DBState) (txn : TransactionRecord)
    (h : completeErrand s eid rid now = .ok (s', txn)) :
    ∃ e, findErrand s eid = some e ∧
      txn.amount = e.final_price ∧
      txn.base_amount = e.base_price ∧
      |txn.platform_fee + txn.runner_earnings -
        preFeeSubtotal e.base_price e.category e.urgency (some e.distance_km)| ≤ 1 / 100 := by
  unfold completeErrand at h
  split at h
  · exact absurd h (by simp)
  next e heq =>
    split at h
    · exact absurd h (by simp)
    split at h
    · exact absurd h (by simp)
    simp only [] at h
    split at h
    · exact absurd h (by simp)
    next runner heq2 =>
      simp only [Except.ok.injEq, Prod.mk.injEq] at h
      obtain ⟨-, htxn⟩ := h
      subst htxn
      exact ⟨e, heq, rfl, rfl,
        platformFee_add_runnerEarnings_near_subtotal e.base_price e.category
          e.urgency (some e.distance_km)⟩

/-- C1 amended, at a concrete input: completing `ipErrand` satisfies the
amended fee-split bound. -/
theorem C1_amended_witness :
    ∃ p : DBState × TransactionRecord,
      completeErrand ipState 1 2 5 = .ok p ∧
      ∃ e, findErrand ipState 1 = some e ∧
        p.2.amount = e.final_price ∧
        p.2.base_amount = e.base_price ∧
        |p.2.platform_fee + p.2.runner_earnings -
          preFeeSubtotal e.base_price e.category e.urgency (some e.distance_km)| ≤ 1 / 100 := by
  have hmap : (completeErrand ipState 1 2 5).map (fun p => p.2.amount) = .ok 115 := by
    norm_num [completeErrand, ipState, ipErrand, findErrand, findRunner, updateErrand,
      updateRunner, completeRow, getFullPricing, jsOr, round2, platformFeeRate,
      categoryMultiplier, urgencyMultiplier, Except.map]
  cases hc : completeErrand ipState 1 2 5 with
  | error err => rw [hc] at hmap; exact absurd hmap (by simp [Except.map])
  | ok p => exact ⟨p, rfl, C1_amended_fee_split ipState 1 2 5 p.1 p.2 hc⟩

theorem distanceNegTruthy_iff (d : Option ℚ) :
    distanceNegTruthy d = true ↔ ∃ x, d = some x ∧ x < 0 := by
  cases d with
  | none => simp [distanceNegTruthy]
  | some x =>
    simp only [distanceNegTruthy, Bool.and_eq_true, Bool.not_eq_true', decide_eq_false_iff_not,
      decide_eq_true_eq, Option.some.injEq]
    constructor
    · rintro ⟨-, h⟩; exact ⟨x, rfl, h⟩
    · rintro ⟨y, rfl, h⟩; exact ⟨ne_of_lt h, h⟩

theorem categoryValues_contains (c : Category) : categoryValues.contains c = true := by
  cases c <;> rfl

theorem urgencyValues_contains (u : Urgency) : urgencyValues.contains u = true := by
  cases u <;> rfl

theorem mem_categoryValues (c : Category) : c ∈ categoryValues := by
  cases c <;> simp [categoryValues]

theorem mem_urgencyValues (u : Urgency) : u ∈ urgencyValues := by
  cases u <;> simp [urgencyValues]

/-- C3 fails as stated: the errand-creation path runs the pricing
function without rejecting a negative distance — creating with budget
100 and distance −5 succeeds. -/
theorem C3_counterexample :
    negDistData.distance = some (-5) ∧
    (createErrand freshState negDistData 0).isOk = true := by
  constructor
  · rfl
  · norm_num [createErrand, freshState, negDistData, findUser, pendingCount,
      newErrandRow, getFullPricing, jsOr, round2, platformFeeRate,
      categoryMultiplier, urgencyMultiplier, Except.isOk, Except.toBool]

/-- C3 amended: only the preview path enforces the enumerated input
validation; `previewEarnings` rejects exactly the non-positive or
below-minimum base prices and negative distances (the enum checks of the
closed enumerations never fire), and returns the breakdown otherwise,
while `createErrand` performs no distance validation and accepts a
negative distance. -/
theorem C3_amended_preview_validation :
    (∀ bp c u d, (∃ err, previewEarnings bp c u d = .error err) ↔
      (bp ≤ 0 ∨ bp < 1 ∨ ∃ x, d = some x ∧ x < 0)) ∧
    (∀ bp c u d, ¬ (bp ≤ 0 ∨ bp < 1 ∨ ∃ x, d = some x ∧ x < 0) →
      previewEarnings bp c u d = .ok (getFullPricing bp c u (some (jsOr d 0)))) ∧
    (∃ st data, data.distance = some (-5) ∧ (createErrand st data 0).isOk = true) := by
  have hprev : ∀ (bp : ℚ) (c : Category) (u : Urgency) (d : Option ℚ),
      ¬ (bp ≤ 0 ∨ bp < 1 ∨ ∃ x, d = some x ∧ x < 0) →
      previewEarnings bp c u d = .ok (getFullPricing bp c u (some (jsOr d 0))) := by
    intro bp c u d h
    push_neg at h
    obtain ⟨h1, h2, h3⟩ := h
    have hd : distanceNegTruthy d = false := by
      rw [← Bool.not_eq_true, distanceNegTruthy_iff]
      rintro ⟨x, rfl, hx⟩
      exact absurd hx (by simpa using h3 x)
    simp [previewEarnings, hd, categoryValues_contains, urgencyValues_contains,
      mem_categoryValues, mem_urgencyValues, not_le.2 h1, not_lt.2 h2]
  refine ⟨?_, hprev, freshState, negDistData, rfl, ?_⟩
  · intro bp c u d
    constructor
    · rintro ⟨err, herr⟩
      by_contra hcond
      rw [hprev bp c u d hcond] at herr
      exact absurd herr (by simp)
    · intro hcond
      unfold previewEarnings
      rcases hcond with h | h | h
      · exact ⟨⟨"INVALID_BASE_PRICE", 400⟩, by simp [h]⟩
      · by_cases h0 : bp ≤ 0
        · exact ⟨⟨"INVALID_BASE_PRICE", 400⟩, by simp [h0]⟩
        · exact ⟨⟨"BASE_PRICE_TOO_LOW", 400⟩, by simp [h0, h]⟩
      · have hd : distanceNegTruthy d = true := (distanceNegTruthy_iff d).2 h
        by_cases h0 : bp ≤ 0
        · exact ⟨⟨"INVALID_BASE_PRICE", 400⟩, by simp [h0]⟩
        · by_cases h1 : bp < 1
          · exact ⟨⟨"BASE_PRICE_TOO_LOW", 400⟩, by simp [h0, h1]⟩
          · exact ⟨⟨"INVALID_DISTANCE", 400⟩, by simp [h0, h1, hd]⟩
  · norm_num [createErrand, freshState, negDistData, findUser, pendingCount,
      newErrandRow, getFullPricing, jsOr, round2, platformFeeRate,
      categoryMultiplier, urgencyMultiplier, Except.isOk, Except.toBool]

/-- C9 fails as stated: a budget below the minimum unit is rejected with
the distinct code BUDGET_TOO_LOW, not INVALID_BUDGET. -/
theorem C9_counterexample :
    createErrand freshState lowBudgetData 0 =
      .error ⟨"BUDGET_TOO_LOW", 400⟩ ∧
    ("BUDGET_TOO_LOW" : String) ≠ "INVALID_BUDGET" ∧
    ("BUDGET_TOO_LOW" : String) ≠ "CUSTOMER_NOT_FOUND" ∧
    ("BUDGET_TOO_LOW" : String) ≠ "ACCOUNT_INACTIVE" ∧
    ("BUDGET_TOO_LOW" : String) ≠ "TOO_MANY_PENDING_ERRANDS" := by
  refine ⟨?_, by simp, by simp, by simp, by simp⟩
  norm_num [createErrand, freshState, lowBudgetData, findUser, pendingCount]

/-- C9 amended: `createErrand` fails with CUSTOMER_NOT_FOUND,
ACCOUNT_INACTIVE, TOO_MANY_PENDING_ERRANDS, INVALID_BUDGET (non-positive
budget), BUDGET_TOO_LOW (budget below the minimum unit — a distinct
code), or INVALID_PRICING (non-positive computed final price), each
exactly when its precondition is the first violated one; otherwise it
persists a new pending errand with no runner and the pricing breakdown
computed once at creation. -/
theorem C9_amended_create_taxonomy (s : DBState) (data : CreateErrandData) (now : Int) :
    (createErrand s data now = .error ⟨"CUSTOMER_NOT_FOUND", 404⟩ ↔
      findUser s data.customerId = none) ∧
    (createErrand s data now = .error ⟨"ACCOUNT_INACTIVE", 403⟩ ↔
      ∃ c, findUser s data.customerId = some c ∧ c.is_active = false) ∧
    (createErrand s data now = .error ⟨"TOO_MANY_PENDING_ERRANDS", 429⟩ ↔
      (∃ c, findUser s data.customerId = some c ∧ c.is_active = true) ∧
      10 ≤ pendingCount s data.customerId) ∧
    (createErrand s data now = .error ⟨"INVALID_BUDGET", 400⟩ ↔
      (∃ c, findUser s data.customerId = some c ∧ c.is_active = true) ∧
      pendingCount s data.customerId < 10 ∧ data.budget ≤ 0) ∧
    (createErrand s data now = .error ⟨"BUDGET_TOO_LOW", 400⟩ ↔
      (∃ c, findUser s data.customerId = some c ∧ c.is_active = true) ∧
      pendingCount s data.customerId < 10 ∧ 0 < data.budget ∧ data.budget < 1) ∧
    (createErrand s data now = .error ⟨"INVALID_PRICING", 400⟩ ↔
      (∃ c, findUser s data.customerId = some c ∧ c.is_active = true) ∧
      pendingCount s data.customerId < 10 ∧ 1 ≤ data.budget ∧
      (getFullPricing data.budget data.category data.urgency
        (some (jsOr data.distance 0))).finalPrice ≤ 0) ∧
    ((∃ p, createErrand s data now = .ok p) ↔
      (∃ c, findUser s data.customerId = some c ∧ c.is_active = true) ∧
      pendingCount s data.customerId < 10 ∧ 1 ≤ data.budget ∧
      0 < (getFullPricing data.budget data.category data.urgency
        (some (jsOr data.distance 0))).finalPrice) ∧
    (∀ s' e, createErrand s data now = .ok (s', e) →
      e.status = ErrandStatus.pending ∧ e.runner_id = none ∧
      e.base_price = data.budget ∧
      e.pricing_breakdown = getFullPricing data.budget data.category data.urgency
        (some (jsOr data.distance 0)) ∧
      e.final_price = e.pricing_breakdown.finalPrice ∧
      s'.errands = s.errands ++ [e] ∧ s'.nextErrandId = s.nextErrandId + 1) := by
  unfold createErrand
  cases hu : findUser s data.customerId with
  | none => simp
  | some c =>
    by_cases hact : c.is_active = false
    · simp [hact]
    · have hact' : c.is_active = true := by
        cases hb : c.is_active
        · exact absurd hb hact
        · rfl
      by_cases hcount : 10 ≤ pendingCount s data.customerId
      · simp [hact, hact', hcount]
      · by_cases h0 : data.budget ≤ 0
        · have hnb : ¬ (1 : ℚ) ≤ data.budget := fun hb => absurd (hb.trans h0) (by norm_num)
          simp [hact, hact', hcount, h0, not_le.1 hcount, hnb]
        · by_cases h1 : data.budget < 1
          · have hnb := not_le.2 h1
            simp [hact, hact', hcount, h0, h1, not_le.1 hcount, not_le.1 h0, hnb]
          · by_cases hfp : (getFullPricing data.budget data.category data.urgency
                (some (jsOr data.distance 0))).finalPrice ≤ 0
            · simp [hact, hact', hcount, h0, h1, hfp, not_le.1 hcount, not_lt.1 h1]
            · simp [hact, hact', hcount, h0, h1, hfp, not_le.1 hcount, not_lt.1 h1,
                not_le.1 hfp, newErrandRow]

/-- C7: the cancellation policy table of `canCancelErrand`, the
CANCELLATION_NOT_ALLOWED error raised by `cancelErrand` whenever the
table denies, and the freed runner: a successful cancel of an errand
with an assigned runner sets that runner's is_available to true. -/
theorem C7_cancellation_policy :
    (canCancelErrand ErrandStatus.pending true false = true) ∧
    (canCancelErrand ErrandStatus.accepted true false = true) ∧
    (canCancelErrand ErrandStatus.in_progress true false = false) ∧
    (canCancelErrand ErrandStatus.accepted false true = true) ∧
    (canCancelErrand ErrandStatus.in_progress false true = true) ∧
    (∀ st, canCancelErrand st false false = false) ∧
    (∀ c r, canCancelErrand ErrandStatus.completed c r = false) ∧
    (∀ c r, canCancelErrand ErrandStatus.cancelled c r = false) ∧
    (∀ s eid uid now e, findErrand s eid = some e →
      canCancelErrand e.status (decide (e.customer_id = uid))
        (decide (e.runner_id = some uid)) = false →
      cancelErrand s eid uid now = .error ⟨"CANCELLATION_NOT_ALLOWED", 403⟩) ∧
    (∀ s eid uid now s' e rid, findErrand s eid = some e → e.runner_id = some rid →
      cancelErrand s eid uid now = .ok s' →
      ∀ r ∈ s'.runners, r.user_id = rid → r.is_available = true) := by
  refine ⟨by decide, by decide, by decide, by decide, by decide,
    by intro st; cases st <;> rfl,
    by intro c r; cases c <;> cases r <;> rfl,
    by intro c r; cases c <;> cases r <;> rfl, ?_, ?_⟩
  · intro s eid uid now e hfind hdeny
    unfold cancelErrand
    rw [hfind]
    simp [hdeny]
  · intro s eid uid now s' e rid hfind hrid h
    unfold cancelErrand at h
    rw [hfind] at h
    simp only [] at h
    rw [hrid] at h
    split at h
    · exact absurd h (by simp)
    split at h
    · exact absurd h (by simp)
    split at h
    · exact absurd h (by simp)
    simp only [Except.ok.injEq] at h
    subst h
    intro r hr hruid
    simp only [updateRunner, updateErrand, List.mem_map] at hr
    obtain ⟨x, hx, rfl⟩ := hr
    by_cases hxu : x.user_id = rid
    · simp [hxu]
    · rw [if_neg hxu] at hruid ⊢
      exact absurd hruid hxu

/-- C8: inside the transaction, once the policy table allows the cancel,
a customer who performed three or more cancellations in the trailing
24-hour window is rejected with TOO_MANY_CANCELLATIONS, and an assigned
runner who performed two or more is rejected with
RUNNER_TOO_MANY_CANCELLATIONS — before any state is mutated (an error
result carries no state change). -/
theorem C8_cancel_rate_limits (s : DBState) (eid uid : Nat) (now : Int) (e : Errand)
    (hfind : findErrand s eid = some e)
    (hallow : canCancelErrand e.status (decide (e.customer_id = uid))
      (decide (e.runner_id = some uid)) = true) :
    (e.customer_id = uid → 3 ≤ customerPerformedCancellations s uid now →
      cancelErrand s eid uid now = .error ⟨"TOO_MANY_CANCELLATIONS", 429⟩) ∧
    (e.customer_id ≠ uid → e.runner_id = some uid →
      2 ≤ runnerPerformedCancellations s uid now →
      cancelErrand s eid uid now = .error ⟨"RUNNER_TOO_MANY_CANCELLATIONS", 429⟩) := by
  have hcmono : customerPerformedCancellations s uid now ≤
      customerRecentCancellations s uid now := by
    refine List.countP_mono_left ?_
    intro a _ ha
    simp only [decide_eq_true_eq] at ha ⊢
    exact ⟨ha.1, ha.2.2.1, ha.2.2.2⟩
  have hrmono : runnerPerformedCancellations s uid now ≤
      runnerRecentCancellations s uid now := by
    refine List.countP_mono_left ?_
    intro a _ ha
    simp only [decide_eq_true_eq] at ha ⊢
    exact ⟨ha.1, ha.2.2.1, ha.2.2.2⟩
  constructor
  · intro hcust hcount
    unfold cancelErrand
    rw [hfind]
    simp only [hallow]
    rw [if_neg (by simp)]
    rw [if_pos ⟨by simp [hcust], le_trans hcount hcmono⟩]
  · intro hncust hrid hcount
    unfold cancelErrand
    rw [hfind]
    simp only [hallow]
    rw [if_neg (by simp)]
    rw [if_neg (by simp [hncust])]
    rw [if_pos ⟨by simp [hrid], le_trans hcount hrmono⟩]

/-- C8 at a concrete input: in `rateState` customer 1 has performed three
cancellations in the window, so cancelling the pending errand 4 is
rejected with TOO_MANY_CANCELLATIONS. -/
theorem C8_witness :
    cancelErrand rateState 4 1 0 = .error ⟨"TOO_MANY_CANCELLATIONS", 429⟩ :=
  (C8_cancel_rate_limits rateState 4 1 0 (pendingRow 4) rfl (by decide)).1 rfl
    (by decide)

theorem findErrand_some (s : DBState) (eid : Nat) (e : Errand)
    (h : findErrand s eid = some e) : e ∈ s.errands ∧ e.id = eid := by
  unfold findErrand at h
  exact ⟨List.mem_of_find?_eq_some h, by simpa using List.find?_some h⟩

theorem eq_of_same_id {l : List Errand} (hnd : (l.map (·.id)).Nodup)
    {e e' : Errand} (he : e ∈ l) (he' : e' ∈ l) (hid : e.id = e'.id) : e = e' :=
  List.inj_on_of_nodup_map hnd he he' hid

theorem pair_of_update {l : List Errand} (hnd : (l.map (·.id)).Nodup) (eid : Nat)
    {f : Errand → Errand} (hf : ∀ x, (f x).id = x.id) {e e' : Errand} (he : e ∈ l)
    (he' : e' ∈ l.map (fun x => if x.id = eid then f x else x)) (hid : e.id = e'.id) :
    (e.id ≠ eid ∧ e' = e) ∨ (e.id = eid ∧ e' = f e) := by
  obtain ⟨a, ha, rfl⟩ := List.mem_map.1 he'
  have haid : (if a.id = eid then f a else a).id = a.id := by
    split <;> simp [hf]
  have hae : a = e := List.inj_on_of_nodup_map hnd ha he (by rw [hid, haid])
  subst hae
  by_cases h : a.id = eid
  · right; exact ⟨h, by rw [if_pos h]⟩
  · left; exact ⟨h, by rw [if_neg h]⟩

theorem findErrand_updateErrand (s : DBState) (eid : Nat) (f : Errand → Errand)
    (hf : ∀ x, (f x).id = x.id) (eid' : Nat) :
    findErrand (updateErrand s eid f) eid' =
      (findErrand s eid').map (fun x => if x.id = eid then f x else x) := by
  unfold findErrand updateErrand
  rw [List.find?_map]
  have hpq : ((fun e : Errand => decide (e.id = eid')) ∘
      fun x => if x.id = eid then f x else x) =
      (fun e : Errand => decide (e.id = eid')) := by
    funext x
    by_cases h : x.id = eid <;> simp [h, hf, Function.comp]
  rw [hpq]

/-- Inversion: `acceptErrand` succeeds exactly on the serialized preconditions, and
its committed state is `acceptApplied`. -/
theorem acceptErrand_ok_proj (s : DBState) (eid rid : Nat) (now mid : Int)
    (s' : DBState) (h : acceptErrand s eid rid now mid = .ok s') :
    ∃ e, findErrand s eid = some e ∧ e.status = ErrandStatus.pending ∧
      e.runner_id = none ∧ e.customer_id ≠ rid ∧
      (findRunnerAvail s rid).isSome = true ∧
      todayAcceptedCount s rid mid < 15 ∧
      s' = acceptApplied s eid rid now := by
  unfold acceptErrand at h
  split at h
  · exact absurd h (by simp)
  next r hr =>
    split at h
    · exact absurd h (by simp)
    next hcnt =>
      split at h
      · exact absurd h (by simp)
      next e heq =>
        split at h
        · exact absurd h (by simp)
        next hst =>
          split at h
          · exact absurd h (by simp)
          next hrid =>
            split at h
            · exact absurd h (by simp)
            next hcust =>
              simp only [Except.ok.injEq] at h
              exact ⟨e, heq, not_not.1 hst, Option.not_isSome_iff_eq_none.1 hrid,
                hcust, by simp [hr], not_le.1 hcnt, h.symm⟩

/-- Conversely `acceptErrand` succeeds whenever the serialized preconditions hold. -/
theorem acceptErrand_ok_of (s : DBState) (eid rid : Nat) (now mid : Int) (e : Errand)
    (hr : (findRunnerAvail s rid).isSome = true)
    (hcnt : todayAcceptedCount s rid mid < 15)
    (he : findErrand s eid = some e) (hst : e.status = ErrandStatus.pending)
    (hrid : e.runner_id = none) (hcust : e.customer_id ≠ rid) :
    acceptErrand s eid rid now mid = .ok (acceptApplied s eid rid now) := by
  unfold acceptErrand
  obtain ⟨r, hr'⟩ := Option.isSome_iff_exists.1 hr
  simp [hr', he, hst, hrid, hcust, not_le.2 hcnt]

/-- Moreover `acceptErrand` fails with ERRAND_UNAVAILABLE when the runner-side
checks pass but the errand is no longer pending. -/
theorem acceptErrand_unavailable (s : DBState) (eid rid : Nat) (now mid : Int)
    (e : Errand) (hr : (findRunnerAvail s rid).isSome = true)
    (hcnt : todayAcceptedCount s rid mid < 15)
    (he : findErrand s eid = some e) (hst : e.status ≠ ErrandStatus.pending) :
    acceptErrand s eid rid now mid = .error ⟨"ERRAND_UNAVAILABLE", 409⟩ := by
  unfold acceptErrand
  obtain ⟨r, hr'⟩ := Option.isSome_iff_exists.1 hr
  simp [hr', he, hst, not_le.2 hcnt]

theorem startErrand_ok_proj (s : DBState) (eid rid : Nat) (now : Int)
    (s' : DBState) (h : startErrand s eid rid now = .ok s') :
    ∃ e, findErrand s eid = some e ∧ e.runner_id = some rid ∧
      e.status = ErrandStatus.accepted ∧ s' = updateErrand s eid (startRow now) := by
  unfold startErrand at h
  split at h
  · exact absurd h (by simp)
  next e heq =>
    split at h
    · exact absurd h (by simp)
    next hrid =>
      split at h
      · exact absurd h (by simp)
      next hst =>
        simp only [Except.ok.injEq] at h
        exact ⟨e, heq, not_not.1 hrid, not_not.1 hst, h.symm⟩

theorem completeErrand_ok_proj (s : DBState) (eid rid : Nat) (now : Int)
    (s' : DBState) (txn : TransactionRecord)
    (h : completeErrand s eid rid now = .ok (s', txn)) :
    ∃ e, findErrand s eid = some e ∧ e.runner_id = some rid ∧
      e.status = ErrandStatus.in_progress ∧
      s'.errands = s.errands.map (fun x => if x.id = eid then completeRow now x else x) ∧
      s'.nextErrandId = s.nextErrandId ∧
      ∃ g : Runner → Runner,
        s'.runners = s.runners.map (fun r => if r.user_id = rid then g r else r) ∧
        ∀ r, (g r).user_id = r.user_id ∧ (g r).is_available = true := by
  unfold completeErrand at h
  split at h
  · exact absurd h (by simp)
  next e heq =>
    split at h
    · exact absurd h (by simp)
    next hrid =>
      split at h
      · exact absurd h (by simp)
      next hst =>
        simp only [] at h
        split at h
        · exact absurd h (by simp)
        next runner heq2 =>
          simp only [Except.ok.injEq, Prod.mk.injEq] at h
          obtain ⟨hs', -⟩ := h
          subst hs'
          refine ⟨e, heq, not_not.1 hrid, not_not.1 hst, rfl, rfl, ?_⟩
          exact ⟨_, rfl, fun r => ⟨rfl, rfl⟩⟩

theorem cancelErrand_ok_proj (s : DBState) (eid uid : Nat) (now : Int)
    (s' : DBState) (h : cancelErrand s eid uid now = .ok s') :
    ∃ e, findErrand s eid = some e ∧
      canCancelErrand e.status (decide (e.customer_id = uid))
        (decide (e.runner_id = some uid)) = true ∧
      s'.errands = s.errands.map (fun x => if x.id = eid then cancelRow uid now x else x) ∧
      s'.nextErrandId = s.nextErrandId ∧
      ((e.runner_id = none ∧ s'.runners = s.runners) ∨
       (∃ rid, e.runner_id = some rid ∧
         s'.runners = s.runners.map (fun r =>
           if r.user_id = rid then { r with is_available := true } else r))) := by
  unfold cancelErrand at h
  split at h
  · exact absurd h (by simp)
  next e heq =>
    simp only [] at h
    split at h
    · exact absurd h (by simp)
    next hallow =>
      split at h
      · exact absurd h (by simp)
      split at h
      · exact absurd h (by simp)
      split at h
      next rid hrid =>
        simp only [Except.ok.injEq] at h
        subst h
        exact ⟨e, heq, Bool.not_eq_false _ ▸ (by simpa using hallow), rfl, rfl,
          .inr ⟨rid, hrid, rfl⟩⟩
      next hrid =>
        simp only [Except.ok.injEq] at h
        subst h
        exact ⟨e, heq, by simpa using hallow, rfl, rfl, .inl ⟨hrid, rfl⟩⟩

theorem createErrand_ok_proj (s : DBState) (data : CreateErrandData) (now : Int)
    (s' : DBState) (e : Errand) (h : createErrand s data now = .ok (s', e)) :
    e = newErrandRow s data now ∧
    s'.errands = s.errands ++ [newErrandRow s data now] ∧
    s'.runners = s.runners ∧ s'.nextErrandId = s.nextErrandId + 1 := by
  unfold createErrand at h
  split at h
  · exact absurd h (by simp)
  next c heq =>
    split at h
    · exact absurd h (by simp)
    split at h
    · exact absurd h (by simp)
    split at h
    · exact absurd h (by simp)
    split at h
    · exact absurd h (by simp)
    split at h
    · exact absurd h (by simp)
    simp only [Except.ok.injEq, Prod.mk.injEq] at h
    obtain ⟨hs', he⟩ := h
    subst hs'
    exact ⟨he.symm, rfl, rfl, rfl⟩

theorem canCancelErrand_status (st : ErrandStatus) (c r : Bool)
    (h : canCancelErrand st c r = true) :
    st = ErrandStatus.pending ∨ st = ErrandStatus.accepted ∨
      st = ErrandStatus.in_progress := by
  by_contra hst
  unfold canCancelErrand at h
  rw [if_pos hst] at h
  exact absurd h (by simp)

/-- C5: each of the five lifecycle operations moves any errand's status
only along pending → accepted → in_progress → completed with cancelled
reachable from the first three; completed and cancelled are absorbing
and no transition re-enters pending. -/
theorem C5_status_monotone (s : DBState) (op : LifecycleOp) (s' : DBState)
    (hwf : WF s) (h : applyOp s op = .ok s') :
    ∀ e ∈ s.errands, ∀ e' ∈ s'.errands, e.id = e'.id →
      statusStepOK e.status e'.status := by
  obtain ⟨hnd, hlt⟩ := hwf
  cases op with
  | create data now =>
    simp only [applyOp] at h
    cases hc : createErrand s data now with
    | error err => rw [hc] at h; exact absurd h (by simp [Except.map])
    | ok p =>
      rw [hc] at h
      simp only [Except.map, Except.ok.injEq] at h
      subst h
      obtain ⟨-, herr, -, -⟩ := createErrand_ok_proj s data now p.1 p.2 (by rw [hc])
      intro e he e' he' hid
      rw [herr] at he'
      rcases List.mem_append.1 he' with h' | h'
      · rw [eq_of_same_id hnd he h' hid]
        exact Or.inl rfl
      · have : e' = newErrandRow s data now := List.mem_singleton.1 h'
        subst this
        have : e.id < s.nextErrandId := hlt e he
        rw [hid] at this
        exact absurd this (by simp [newErrandRow])
  | accept eid rid now mid =>
    obtain ⟨e0, hfind, hpend, -, -, -, -, hs'⟩ :=
      acceptErrand_ok_proj s eid rid now mid s' h
    subst hs'
    obtain ⟨he0mem, he0id⟩ := findErrand_some s eid e0 hfind
    intro e he e' he' hid
    have hmap : (acceptApplied s eid rid now).errands =
        s.errands.map (fun x => if x.id = eid then acceptRow rid now x else x) := rfl
    rw [hmap] at he'
    rcases @pair_of_update _ hnd eid (acceptRow rid now) (fun x => rfl) _ _ he he' hid with
      ⟨-, rfl⟩ | ⟨heid, rfl⟩
    · exact Or.inl rfl
    · have he0 : e = e0 := eq_of_same_id hnd he he0mem (by rw [heid, he0id])
      rw [he0, hpend]
      exact Or.inr (Or.inl ⟨rfl, Or.inl rfl⟩)
  | start eid rid now =>
    obtain ⟨e0, hfind, -, hacc, hs'⟩ := startErrand_ok_proj s eid rid now s' h
    subst hs'
    obtain ⟨he0mem, he0id⟩ := findErrand_some s eid e0 hfind
    intro e he e' he' hid
    have hmap : (updateErrand s eid (startRow now)).errands =
        s.errands.map (fun x => if x.id = eid then startRow now x else x) := rfl
    rw [hmap] at he'
    rcases @pair_of_update _ hnd eid (startRow now) (fun x => rfl) _ _ he he' hid with
      ⟨-, rfl⟩ | ⟨heid, rfl⟩
    · exact Or.inl rfl
    · have he0 : e = e0 := eq_of_same_id hnd he he0mem (by rw [heid, he0id])
      rw [he0, hacc]
      exact Or.inr (Or.inr (Or.inl ⟨rfl, Or.inl rfl⟩))
  | complete eid rid now =>
    simp only [applyOp] at h
    cases hc : completeErrand s eid rid now with
    | error err => rw [hc] at h; exact absurd h (by simp [Except.map])
    | ok p =>
      rw [hc] at h
      simp only [Except.map, Except.ok.injEq] at h
      subst h
      obtain ⟨e0, hfind, -, hip, herr, -, -⟩ :=
        completeErrand_ok_proj s eid rid now p.1 p.2 (by rw [hc])
      obtain ⟨he0mem, he0id⟩ := findErrand_some s eid e0 hfind
      intro e he e' he' hid
      rw [herr] at he'
      rcases @pair_of_update _ hnd eid (completeRow now) (fun x => rfl) _ _ he he' hid with
        ⟨-, rfl⟩ | ⟨heid, rfl⟩
      · exact Or.inl rfl
      · have he0 : e = e0 := eq_of_same_id hnd he he0mem (by rw [heid, he0id])
        rw [he0, hip]
        exact Or.inr (Or.inr (Or.inr ⟨rfl, Or.inl rfl⟩))
  | cancel eid uid now =>
    obtain ⟨e0, hfind, hallow, herr, -, -⟩ := cancelErrand_ok_proj s eid uid now s' h
    obtain ⟨he0mem, he0id⟩ := findErrand_some s eid e0 hfind
    intro e he e' he' hid
    rw [herr] at he'
    rcases @pair_of_update _ hnd eid (cancelRow uid now) (fun x => rfl) _ _ he he' hid with
      ⟨-, rfl⟩ | ⟨heid, rfl⟩
    · exact Or.inl rfl
    · have he0 : e = e0 := eq_of_same_id hnd he he0mem (by rw [heid, he0id])
      rcases canCancelErrand_status e0.status _ _ hallow with h0 | h0 | h0
      · rw [he0, h0]; exact Or.inr (Or.inl ⟨rfl, Or.inr rfl⟩)
      · rw [he0, h0]; exact Or.inr (Or.inr (Or.inl ⟨rfl, Or.inr rfl⟩))
      · rw [he0, h0]; exact Or.inr (Or.inr (Or.inr ⟨rfl, Or.inr rfl⟩))

/-- C5 at a concrete input: starting the accepted errand of `accState`
takes it from accepted to in_progress, an allowed forward step. -/
theorem C5_witness :
    statusStepOK accErrand.status (startRow 5 accErrand).status :=
  C5_status_monotone accState (.start 1 2 5) (updateErrand accState 1 (startRow 5))
    (by decide) rfl accErrand (by simp [accState]) (startRow 5 accErrand)
    (by simp [updateErrand, accState, accErrand]) rfl

theorem findRunnerAvail_spec (s : DBState) (rid : Nat)
    (h : (findRunnerAvail s rid).isSome = true) :
    ∃ x ∈ s.runners, x.user_id = rid ∧ x.is_available = true ∧
      x.is_approved = true := by
  rw [Option.isSome_iff_exists] at h
  obtain ⟨x, hx⟩ := h
  refine ⟨x, List.mem_of_find?_eq_some hx, ?_⟩
  simpa using List.find?_some hx

theorem map_ids_update (l : List Errand) (eid : Nat) (f : Errand → Errand)
    (hf : ∀ x, (f x).id = x.id) :
    (l.map (fun x => if x.id = eid then f x else x)).map (·.id) = l.map (·.id) := by
  rw [List.map_map]
  congr 1
  funext x
  by_cases h : x.id = eid <;> simp [h, hf]

/-- C4 fails as stated: `updateRunnerProfile` sets `is_available := true`
for runner 2 although runner 2 still holds the accepted errand of
`accState`, breaking the availability invariant that held before. -/
theorem C4_counterexample :
    updateRunnerProfile accState 2 ⟨some true⟩ =
      .ok (updateRunner accState 2 (fun r => { r with is_available := true })) ∧
    AvailOK accState ∧
    ¬ AvailOK (updateRunner accState 2 (fun r => { r with is_available := true })) := by
  refine ⟨rfl, by decide, by decide⟩

/-- C4 amended: restricted to the five lifecycle operations, the
availability ledger is an invariant — a runner holding an errand in
{accepted, in_progress} is flagged unavailable, each runner holds at
most one active errand, and accept/complete/cancel are the only flips;
`updateRunnerProfile` (runner profile updates) is not so restricted and
can set is_available while the runner holds an active errand
(see the counterexample). -/
theorem C4_amended_inv_preserved (s : DBState) (op : LifecycleOp) (s' : DBState)
    (hinv : Inv s) (h : applyOp s op = .ok s') : Inv s' := by
  obtain ⟨⟨hnd, hlt⟩, hnpr, hau, hav⟩ := hinv
  cases op with
  | create data now =>
    simp only [applyOp] at h
    cases hc : createErrand s data now with
    | error err => rw [hc] at h; exact absurd h (by simp [Except.map])
    | ok p =>
      rw [hc] at h
      simp only [Except.map, Except.ok.injEq] at h
      subst h
      obtain ⟨-, herr, hrun, hnext⟩ := createErrand_ok_proj s data now p.1 p.2 (by rw [hc])
      refine ⟨⟨?_, ?_⟩, ?_, ?_, ?_⟩
      · rw [herr, List.map_append, List.nodup_append]
        refine ⟨hnd, by simp, ?_⟩
        intro a ha hb
        simp only [List.map_cons, List.map_nil, List.mem_singleton] at hb
        obtain ⟨x, hx, rfl⟩ := List.mem_map.1 ha
        have hxlt := hlt x hx
        rw [show (newErrandRow s data now).id = s.nextErrandId from rfl] at hb
        rw [hb] at hxlt
        exact absurd hxlt (lt_irrefl _)
      · rw [herr, hnext]
        intro e he
        rcases List.mem_append.1 he with h' | h'
        · exact lt_trans (hlt e h') (Nat.lt_succ_self _)
        · rw [List.mem_singleton.1 h']
          exact Nat.lt_succ_self _
      · intro e he hrne
        rw [herr] at he
        rcases List.mem_append.1 he with h' | h'
        · exact hnpr e h' hrne
        · rw [List.mem_singleton.1 h'] at hrne
          exact absurd rfl hrne
      · intro e₁ he₁ e₂ he₂ ha₁ ha₂ hne hreq
        rw [herr] at he₁ he₂
        rcases List.mem_append.1 he₁ with h₁ | h₁
        · rcases List.mem_append.1 he₂ with h₂ | h₂
          · exact hau e₁ h₁ e₂ h₂ ha₁ ha₂ hne hreq
          · rw [List.mem_singleton.1 h₂] at ha₂
            exact absurd ha₂ (by simp [isActive, newErrandRow])
        · rw [List.mem_singleton.1 h₁] at ha₁
          exact absurd ha₁ (by simp [isActive, newErrandRow])
      · intro r hr e he hae hre
        rw [hrun] at hr
        rw [herr] at he
        rcases List.mem_append.1 he with h' | h'
        · exact hav r hr e h' hae hre
        · rw [List.mem_singleton.1 h'] at hae
          exact absurd hae (by simp [isActive, newErrandRow])
  | accept eid rid now mid =>
    obtain ⟨e0, hfind, hpend, hrnone, hcust, hravail, hcnt, hs'⟩ :=
      acceptErrand_ok_proj s eid rid now mid s' h
    subst hs'
    obtain ⟨he0mem, he0id⟩ := findErrand_some s eid e0 hfind
    have hnoact : ∀ a ∈ s.errands, isActive a → a.runner_id ≠ some rid := by
      intro a ha haact har
      obtain ⟨x, hx, hxid, hxav, -⟩ := findRunnerAvail_spec s rid hravail
      have hfalse := hav x hx a ha haact (by rw [har, hxid])
      rw [hxav] at hfalse
      exact absurd hfalse (by simp)
    have herr : (acceptApplied s eid rid now).errands =
        s.errands.map (fun x => if x.id = eid then acceptRow rid now x else x) := rfl
    have hrun : (acceptApplied s eid rid now).runners =
        s.runners.map (fun r =>
          if r.user_id = rid then { r with is_available := false } else r) := rfl
    refine ⟨⟨?_, ?_⟩, ?_, ?_, ?_⟩
    · rw [herr, map_ids_update s.errands eid (acceptRow rid now) (fun x => rfl)]
      exact hnd
    · rw [herr]
      intro e he
      obtain ⟨a, ha, rfl⟩ := List.mem_map.1 he
      have hid : (if a.id = eid then acceptRow rid now a else a).id = a.id := by
        split <;> rfl
      rw [hid]
      exact hlt a ha
    · intro e he hrne
      rw [herr] at he
      obtain ⟨a, ha, rfl⟩ := List.mem_map.1 he
      by_cases hid : a.id = eid
      · rw [if_pos hid]
        simp [acceptRow]
      · rw [if_neg hid] at hrne ⊢
        exact hnpr a ha hrne
    · intro e₁ he₁ e₂ he₂ ha₁ ha₂ hne hreq
      rw [herr] at he₁ he₂
      obtain ⟨a₁, ha₁m, rfl⟩ := List.mem_map.1 he₁
      obtain ⟨a₂, ha₂m, rfl⟩ := List.mem_map.1 he₂
      by_cases h₁ : a₁.id = eid <;> by_cases h₂ : a₂.id = eid
      · have : a₁ = a₂ := eq_of_same_id hnd ha₁m ha₂m (h₁.trans h₂.symm)
        rw [this]
      · rw [if_pos h₁] at hreq
        rw [if_neg h₂] at hreq ha₂
        have : a₂.runner_id = some rid := by
          rw [← hreq]; rfl
        exact absurd this (hnoact a₂ ha₂m ha₂)
      · rw [if_neg h₁] at hreq ha₁
        rw [if_pos h₂] at hreq
        have : a₁.runner_id = some rid := by
          rw [hreq]; rfl
        exact absurd this (hnoact a₁ ha₁m ha₁)
      · rw [if_neg h₁] at ha₁ hne hreq ⊢
        rw [if_neg h₂] at ha₂ hreq ⊢
        exact hau a₁ ha₁m a₂ ha₂m ha₁ ha₂ hne hreq
    · intro r hr e he hae hre
      rw [hrun] at hr
      rw [herr] at he
      obtain ⟨x, hx, rfl⟩ := List.mem_map.1 hr
      obtain ⟨a, ha, rfl⟩ := List.mem_map.1 he
      by_cases hxu : x.user_id = rid
      · rw [if_pos hxu]
      · rw [if_neg hxu] at hre ⊢
        by_cases hid : a.id = eid
        · rw [if_pos hid] at hre
          have : rid = x.user_id := by
            have h' : (acceptRow rid now a).runner_id = some rid := rfl
            rw [h'] at hre
            exact Option.some.inj hre
          exact absurd this.symm hxu
        · rw [if_neg hid] at hre hae
          exact hav x hx a ha hae hre
  | start eid rid now =>
    obtain ⟨e0, hfind, hrsome, hacc, hs'⟩ := startErrand_ok_proj s eid rid now s' h
    subst hs'
    obtain ⟨he0mem, he0id⟩ := findErrand_some s eid e0 hfind
    have herr : (updateErrand s eid (startRow now)).errands =
        s.errands.map (fun x => if x.id = eid then startRow now x else x) := rfl
    have hrun : (updateErrand s eid (startRow now)).runners = s.runners := rfl
    have he0act : isActive e0 := Or.inl hacc
    refine ⟨⟨?_, ?_⟩, ?_, ?_, ?_⟩
    · rw [herr, map_ids_update s.errands eid (startRow now) (fun x => rfl)]
      exact hnd
    · rw [herr]
      intro e he
      obtain ⟨a, ha, rfl⟩ := List.mem_map.1 he
      have hid : (if a.id = eid then startRow now a else a).id = a.id := by
        split <;> rfl
      rw [hid]
      exact hlt a ha
    · intro e he hrne
      rw [herr] at he
      obtain ⟨a, ha, rfl⟩ := List.mem_map.1 he
      by_cases hid : a.id = eid
      · rw [if_pos hid]
        simp [startRow]
      · rw [if_neg hid] at hrne ⊢
        exact hnpr a ha hrne
    · intro e₁ he₁ e₂ he₂ ha₁ ha₂ hne hreq
      rw [herr] at he₁ he₂
      obtain ⟨a₁, ha₁m, rfl⟩ := List.mem_map.1 he₁
      obtain ⟨a₂, ha₂m, rfl⟩ := List.mem_map.1 he₂
      by_cases h₁ : a₁.id = eid <;> by_cases h₂ : a₂.id = eid
      · have : a₁ = a₂ := eq_of_same_id hnd ha₁m ha₂m (h₁.trans h₂.symm)
        rw [this]
      · rw [if_pos h₁] at hreq ⊢
        rw [if_neg h₂] at hreq ha₂ ⊢
        have ha₁e0 : a₁ = e0 := eq_of_same_id hnd ha₁m he0mem (h₁.trans he0id.symm)
        have hreq' : e0.runner_id = a₂.runner_id := by
          rw [← hreq, ha₁e0]
          exact rfl
        have hids := hau e0 he0mem a₂ ha₂m he0act ha₂ (by rw [hrsome]; simp) hreq'
        show (startRow now a₁).id = a₂.id
        rw [show (startRow now a₁).id = a₁.id from rfl, ha₁e0]
        exact hids
      · rw [if_neg h₁] at hreq ha₁ hne ⊢
        rw [if_pos h₂] at hreq ⊢
        have ha₂e0 : a₂ = e0 := eq_of_same_id hnd ha₂m he0mem (h₂.trans he0id.symm)
        have hreq' : a₁.runner_id = e0.runner_id := by
          rw [hreq, ha₂e0]
          exact rfl
        have hids := hau a₁ ha₁m e0 he0mem ha₁ he0act hne hreq'
        show a₁.id = (startRow now a₂).id
        rw [show (startRow now a₂).id = a₂.id from rfl, ha₂e0]
        exact hids
      · rw [if_neg h₁] at ha₁ hne hreq ⊢
        rw [if_neg h₂] at ha₂ hreq ⊢
        exact hau a₁ ha₁m a₂ ha₂m ha₁ ha₂ hne hreq
    · intro r hr e he hae hre
      rw [hrun] at hr
      rw [herr] at he
      obtain ⟨a, ha, rfl⟩ := List.mem_map.1 he
      by_cases hid : a.id = eid
      · rw [if_pos hid] at hae hre
        have hae0 : a = e0 := eq_of_same_id hnd ha he0mem (hid.trans he0id.symm)
        have hre' : e0.runner_id = some r.user_id := by
          rw [← hae0]; exact hre
        exact hav r hr e0 he0mem he0act hre'
      · rw [if_neg hid] at hae hre
        exact hav r hr a ha hae hre
  | complete eid rid now =>
    simp only [applyOp] at h
    cases hc : completeErrand s eid rid now with
    | error err => rw [hc] at h; exact absurd h (by simp [Except.map])
    | ok p =>
      rw [hc] at h
      simp only [Except.map, Except.ok.injEq] at h
      subst h
      obtain ⟨e0, hfind, hrsome, hip, herr, hnext, g, hrun, hg⟩ :=
        completeErrand_ok_proj s eid rid now p.1 p.2 (by rw [hc])
      obtain ⟨he0mem, he0id⟩ := findErrand_some s eid e0 hfind
      have he0act : isActive e0 := Or.inr hip
      refine ⟨⟨?_, ?_⟩, ?_, ?_, ?_⟩
      · rw [herr, map_ids_update s.errands eid (completeRow now) (fun x => rfl)]
        exact hnd
      · rw [herr, hnext]
        intro e he
        obtain ⟨a, ha, rfl⟩ := List.mem_map.1 he
        have hid : (if a.id = eid then completeRow now a else a).id = a.id := by
          split <;> rfl
        rw [hid]; exact hlt a ha
      · intro e he hrne
        rw [herr] at he
        obtain ⟨a, ha, rfl⟩ := List.mem_map.1 he
        by_cases hid : a.id = eid
        · rw [if_pos hid]; simp [completeRow]
        · rw [if_neg hid] at hrne ⊢; exact hnpr a ha hrne
      · intro e₁ he₁ e₂ he₂ ha₁ ha₂ hne hreq
        rw [herr] at he₁ he₂
        obtain ⟨a₁, ha₁m, rfl⟩ := List.mem_map.1 he₁
        obtain ⟨a₂, ha₂m, rfl⟩ := List.mem_map.1 he₂
        by_cases h₁ : a₁.id = eid
        · rw [if_pos h₁] at ha₁
          exact absurd ha₁ (by simp [isActive, completeRow])
        · by_cases h₂ : a₂.id = eid
          · rw [if_pos h₂] at ha₂
            exact absurd ha₂ (by simp [isActive, completeRow])
          · rw [if_neg h₁] at ha₁ hne hreq ⊢
            rw [if_neg h₂] at ha₂ hreq ⊢
            exact hau a₁ ha₁m a₂ ha₂m ha₁ ha₂ hne hreq
      · intro r hr e he hae hre
        rw [hrun] at hr
        rw [herr] at he
        obtain ⟨x, hx, rfl⟩ := List.mem_map.1 hr
        obtain ⟨a, ha, rfl⟩ := List.mem_map.1 he
        by_cases hid : a.id = eid
        · rw [if_pos hid] at hae
          exact absurd hae (by simp [isActive, completeRow])
        · rw [if_neg hid] at hae hre
          by_cases hxu : x.user_id = rid
          · rw [if_pos hxu] at hre
            have hre' : a.runner_id = some rid := by
              rw [hre, (hg x).1, hxu]
            have hids := hau a ha e0 he0mem hae he0act (by rw [hre']; simp)
              (by rw [hre', hrsome])
            exact absurd (hids.trans he0id) hid
          · rw [if_neg hxu] at hre ⊢
            exact hav x hx a ha hae hre
  | cancel eid uid now =>
    obtain ⟨e0, hfind, hallow, herr, hnext, hrcase⟩ :=
      cancelErrand_ok_proj s eid uid now s' h
    obtain ⟨he0mem, he0id⟩ := findErrand_some s eid e0 hfind
    refine ⟨⟨?_, ?_⟩, ?_, ?_, ?_⟩
    · rw [herr, map_ids_update s.errands eid (cancelRow uid now) (fun x => rfl)]
      exact hnd
    · rw [herr, hnext]
      intro e he
      obtain ⟨a, ha, rfl⟩ := List.mem_map.1 he
      have hid : (if a.id = eid then cancelRow uid now a else a).id = a.id := by
        split <;> rfl
      rw [hid]; exact hlt a ha
    · intro e he hrne
      rw [herr] at he
      obtain ⟨a, ha, rfl⟩ := List.mem_map.1 he
      by_cases hid : a.id = eid
      · rw [if_pos hid]; simp [cancelRow]
      · rw [if_neg hid] at hrne ⊢; exact hnpr a ha hrne
    · intro e₁ he₁ e₂ he₂ ha₁ ha₂ hne hreq
      rw [herr] at he₁ he₂
      obtain ⟨a₁, ha₁m, rfl⟩ := List.mem_map.1 he₁
      obtain ⟨a₂, ha₂m, rfl⟩ := List.mem_map.1 he₂
      by_cases h₁ : a₁.id = eid
      · rw [if_pos h₁] at ha₁
        exact absurd ha₁ (by simp [isActive, cancelRow])
      · by_cases h₂ : a₂.id = eid
        · rw [if_pos h₂] at ha₂
          exact absurd ha₂ (by simp [isActive, cancelRow])
        · rw [if_neg h₁] at ha₁ hne hreq ⊢
          rw [if_neg h₂] at ha₂ hreq ⊢
          exact hau a₁ ha₁m a₂ ha₂m ha₁ ha₂ hne hreq
    · rcases hrcase with ⟨hrnone, hrunEq⟩ | ⟨rid, hrsome, hrunEq⟩
      · intro r hr e he hae hre
        rw [hrunEq] at hr
        rw [herr] at he
        obtain ⟨a, ha, rfl⟩ := List.mem_map.1 he
        by_cases hid : a.id = eid
        · rw [if_pos hid] at hae
          exact absurd hae (by simp [isActive, cancelRow])
        · rw [if_neg hid] at hae hre
          exact hav r hr a ha hae hre
      · have he0act : isActive e0 := by
          rcases canCancelErrand_status e0.status _ _ hallow with h0 | h0 | h0
          · exact absurd h0 (hnpr e0 he0mem (by rw [hrsome]; simp))
          · exact Or.inl h0
          · exact Or.inr h0
        intro r hr e he hae hre
        rw [hrunEq] at hr
        rw [herr] at he
        obtain ⟨x, hx, rfl⟩ := List.mem_map.1 hr
        obtain ⟨a, ha, rfl⟩ := List.mem_map.1 he
        by_cases hid : a.id = eid
        · rw [if_pos hid] at hae
          exact absurd hae (by simp [isActive, cancelRow])
        · rw [if_neg hid] at hae hre
          by_cases hxu : x.user_id = rid
          · rw [if_pos hxu] at hre
            have hre' : a.runner_id = some rid := by
              rw [show ({ x with is_available := true } : Runner).user_id = x.user_id
                from rfl] at hre
              rw [hre, hxu]
            have hids := hau a ha e0 he0mem hae he0act (by rw [hre']; simp)
              (by rw [hre', hrsome])
            exact absurd (hids.trans he0id) hid
          · rw [if_neg hxu] at hre ⊢
            exact hav x hx a ha hae hre

/-- C4 amended, at a concrete input: starting the accepted errand of
`accState` (whose runner 2 is unavailable) preserves the availability
invariant. -/
theorem C4_amended_witness : Inv (updateErrand accState 1 (startRow 5)) :=
  C4_amended_inv_preserved accState (.start 1 2 5)
    (updateErrand accState 1 (startRow 5)) (by decide) rfl

theorem runAccepts_all_fail (eid : Nat) (now mid : Int) (s₁ : DBState)
    (rs : List Nat) (err : ErrandError)
    (hfail : ∀ r ∈ rs, acceptErrand s₁ eid r now mid = .error err) :
    runAccepts eid now mid s₁ rs = (List.replicate rs.length (.error err), s₁) := by
  induction rs with
  | nil => rfl
  | cons r rs ih =>
    rw [runAccepts, hfail r (List.mem_cons_self _ _)]
    rw [ih (fun x hx => hfail x (List.mem_cons_of_mem _ hx))]
    rfl

/-- C6: with the row lock serializing the racing accept calls into some
order, the first eligible runner's call succeeds (assigning it and
setting status accepted) and every later call fails with
ERRAND_UNAVAILABLE — one of the two failure codes the claim allows — so
exactly one of the N racing calls succeeds. -/
theorem C6_at_most_one_acceptor (s : DBState) (eid : Nat) (now mid : Int)
    (e : Errand) (r₁ : Nat) (rest : List Nat)
    (hfind : findErrand s eid = some e) (hpend : e.status = ErrandStatus.pending)
    (hrnone : e.runner_id = none) (hnodup : (r₁ :: rest).Nodup)
    (helig : ∀ r ∈ r₁ :: rest, eligibleRunner s eid r mid) :
    runAccepts eid now mid s (r₁ :: rest) =
      (.ok () :: List.replicate rest.length (.error ⟨"ERRAND_UNAVAILABLE", 409⟩),
       acceptApplied s eid r₁ now) := by
  obtain ⟨hr₁avail, hr₁cnt, hr₁cust⟩ := helig r₁ (List.mem_cons_self _ _)
  have he0id : e.id = eid := (findErrand_some s eid e hfind).2
  have hcust₁ : e.customer_id ≠ r₁ := by
    rw [hfind] at hr₁cust
    simpa using hr₁cust
  have hwin := acceptErrand_ok_of s eid r₁ now mid e hr₁avail hr₁cnt hfind hpend
    hrnone hcust₁
  have hfail : ∀ r ∈ rest,
      acceptErrand (acceptApplied s eid r₁ now) eid r now mid =
        .error ⟨"ERRAND_UNAVAILABLE", 409⟩ := by
    intro r hr
    have hne : r ≠ r₁ := by
      intro hrr
      exact absurd (hrr ▸ hr) (List.nodup_cons.1 hnodup).1
    obtain ⟨hravail, hrcnt, -⟩ := helig r (List.mem_cons_of_mem _ hr)
    have hfind₁ : findErrand (acceptApplied s eid r₁ now) eid =
        some (acceptRow r₁ now e) := by
      have hsame : findErrand (acceptApplied s eid r₁ now) eid =
          findErrand (updateErrand s eid (acceptRow r₁ now)) eid := rfl
      rw [hsame, findErrand_updateErrand s eid (acceptRow r₁ now) (fun x => rfl) eid,
        hfind]
      simp [he0id]
    have havail₁ : (findRunnerAvail (acceptApplied s eid r₁ now) r).isSome = true := by
      obtain ⟨x, hx, hxid, hxav, hxap⟩ := findRunnerAvail_spec s r hravail
      have hmem : x ∈ (acceptApplied s eid r₁ now).runners := by
        have hxx : (if x.user_id = r₁ then
            ({ x with is_available := false } : Runner) else x) = x := by
          rw [if_neg (by rw [hxid]; exact hne)]
        exact List.mem_map.2 ⟨x, hx, hxx⟩
      rw [findRunnerAvail, List.find?_isSome]
      exact ⟨x, hmem, by simp [hxid, hxav, hxap]⟩
    have hcnt₁ : todayAcceptedCount (acceptApplied s eid r₁ now) r mid < 15 := by
      have hle : todayAcceptedCount (acceptApplied s eid r₁ now) r mid ≤
          todayAcceptedCount s r mid := by
        have hmapped : (acceptApplied s eid r₁ now).errands =
            s.errands.map (fun x => if x.id = eid then acceptRow r₁ now x else x) := rfl
        unfold todayAcceptedCount
        rw [hmapped, List.countP_map]
        refine List.countP_mono_left ?_
        intro a _ ha
        simp only [Function.comp] at ha
        by_cases hid : a.id = eid
        · simp [hid, acceptRow, acceptedSince, Ne.symm hne] at ha
        · simpa [hid] using ha
      exact lt_of_le_of_lt hle hrcnt
    exact acceptErrand_unavailable (acceptApplied s eid r₁ now) eid r now mid
      (acceptRow r₁ now e) havail₁ hcnt₁ hfind₁ (by simp [acceptRow])
  rw [runAccepts, hwin]
  simp only []
  rw [runAccepts_all_fail eid now mid (acceptApplied s eid r₁ now)
    rest ⟨"ERRAND_UNAVAILABLE", 409⟩ hfail]

/-- C6 at a concrete input: runners 2 and 3 race on the pending errand of
`raceState`; runner 2's call succeeds and runner 3's fails with
ERRAND_UNAVAILABLE. -/
theorem C6_witness :
    runAccepts 1 7 0 raceState [2, 3] =
      ([.ok (), .error ⟨"ERRAND_UNAVAILABLE", 409⟩],
       acceptApplied raceState 1 2 7) :=
  C6_at_most_one_acceptor raceState 1 7 0 (pendingRow 1) 2 [3] rfl rfl rfl
    (by decide) (by decide)

end CampusConnect
